import Mathlib

/-!
Shallow embedding of the Mergington High School activities service
(`src/app.py`): a FastAPI application over a SQLite store with two tables,
`activities(name PRIMARY KEY, description, schedule, max_participants)` and
`participants(activity_name, email, PRIMARY KEY (activity_name, email))`,
and four operations: seed (`init_db`), list (`get_activities`), signup
(`signup_for_activity`) and unregister (`unregister_from_activity`).

The store is modelled as lists of rows in insertion order (SQLite returns
rows of these ordinary rowid tables in insertion order when no ORDER BY is
given, and the code never uses ORDER BY). SQL `TEXT` is `String`, SQL
`INTEGER` is `Int`, `COUNT(*)` is list length after a filter, `HTTPException`
is an error value carrying the status code and detail string, and a Python
`raise` before `conn.commit()` leaves the committed store unchanged
(the connection is closed without a commit, discarding pending writes).
-/

/-- A row of the `activities` table. -/
structure Activity where
  name : String
  description : String
  schedule : String
  max_participants : Int
deriving DecidableEq, Repr

/-- A row of the `participants` table: a membership pair (the spec's Membership; the suffix avoids the standard library name). -/
structure MembershipRow where
  activity_name : String
  email : String
deriving DecidableEq, Repr

/-- The persistent store: both tables, rows in insertion order. -/
structure DB where
  activities : List Activity
  participants : List MembershipRow
deriving DecidableEq, Repr

/-- `HTTPException(status_code=..., detail=...)` as raised by the handlers. -/
structure HTTPException where
  status_code : Nat
  detail : String
deriving DecidableEq, Repr

/-- One entry of the `INITIAL_ACTIVITIES` dict: an activity together with its
seeded participant emails. -/
structure SeedActivity where
  name : String
  description : String
  schedule : String
  max_participants : Int
  participants : List String
deriving DecidableEq, Repr

/-- The `INITIAL_ACTIVITIES` module constant of `src/app.py`, in the order of
the Python dict literal (Python dicts preserve insertion order). -/
def INITIAL_ACTIVITIES : List SeedActivity :=
  [ { name := "Chess Club",
      description := "Learn strategies and compete in chess tournaments",
      schedule := "Fridays, 3:30 PM - 5:00 PM",
      max_participants := 12,
      participants := ["michael@mergington.edu", "daniel@mergington.edu"] },
    { name := "Programming Class",
      description := "Learn programming fundamentals and build software projects",
      schedule := "Tuesdays and Thursdays, 3:30 PM - 4:30 PM",
      max_participants := 20,
      participants := ["emma@mergington.edu", "sophia@mergington.edu"] },
    { name := "Gym Class",
      description := "Physical education and sports activities",
      schedule := "Mondays, Wednesdays, Fridays, 2:00 PM - 3:00 PM",
      max_participants := 30,
      participants := ["john@mergington.edu", "olivia@mergington.edu"] },
    { name := "Soccer Team",
      description := "Join the school soccer team and compete in local leagues",
      schedule := "Tuesdays and Thursdays, 4:00 PM - 5:30 PM",
      max_participants := 18,
      participants := ["lucas@mergington.edu", "mia@mergington.edu"] },
    { name := "Basketball Club",
      description := "Practice basketball skills and play friendly matches",
      schedule := "Wednesdays, 3:30 PM - 5:00 PM",
      max_participants := 15,
      participants := ["liam@mergington.edu", "ava@mergington.edu"] },
    { name := "Drama Club",
      description := "Participate in school plays and improve acting skills",
      schedule := "Mondays, 4:00 PM - 5:30 PM",
      max_participants := 20,
      participants := ["noah@mergington.edu", "isabella@mergington.edu"] },
    { name := "Art Workshop",
      description := "Explore painting, drawing, and other visual arts",
      schedule := "Fridays, 2:00 PM - 3:30 PM",
      max_participants := 16,
      participants := ["amelia@mergington.edu", "benjamin@mergington.edu"] },
    { name := "Math Olympiad",
      description := "Prepare for math competitions and solve challenging problems",
      schedule := "Thursdays, 3:30 PM - 5:00 PM",
      max_participants := 10,
      participants := ["charlotte@mergington.edu", "jack@mergington.edu"] },
    { name := "Debate Team",
      description := "Develop public speaking and argumentation skills",
      schedule := "Wednesdays, 4:00 PM - 5:30 PM",
      max_participants := 12,
      participants := ["harper@mergington.edu", "elijah@mergington.edu"] } ]

/-- The activity rows `init_db` inserts from `INITIAL_ACTIVITIES`. -/
def seedActivityRows : List Activity :=
  INITIAL_ACTIVITIES.map (fun s =>
    { name := s.name, description := s.description, schedule := s.schedule,
      max_participants := s.max_participants })

/-- The membership rows `init_db` inserts from `INITIAL_ACTIVITIES`
(per activity, in dict order, each activity's emails in list order). -/
def seedMembershipRows : List MembershipRow :=
  (INITIAL_ACTIVITIES.map (fun s =>
    s.participants.map (fun e => MembershipRow.mk s.name e))).flatten

/-- `init_db` of `src/app.py`: creates the tables when absent (the model's
`DB` always has both tables) and populates the fixed initial dataset only
when `SELECT COUNT(*) FROM activities` returns 0; otherwise it changes
nothing. The inserts append to whatever rows the tables already hold. -/
def init_db (db : DB) : DB :=
  if db.activities.length = 0 then
    { activities := seedActivityRows,
      participants := db.participants ++ seedMembershipRows }
  else db

/-- The empty store (fresh database file with no rows). -/
def emptyDB : DB := { activities := [], participants := [] }

/-- The seeded initial state: the store after the startup `init_db()` call
on a fresh database. -/
def seedDB : DB := init_db emptyDB

/-- `SELECT ... FROM activities WHERE name = ?` followed by `fetchone()`:
the first activity row with the given name, if any. -/
def findActivity (db : DB) (activity_name : String) : Option Activity :=
  db.activities.find? (fun a => a.name == activity_name)

/-- `SELECT COUNT(*) FROM participants WHERE activity_name = ?`. -/
def countParticipants (db : DB) (activity_name : String) : Nat :=
  (db.participants.filter (fun m => m.activity_name == activity_name)).length

/-- `SELECT 1 FROM participants WHERE activity_name = ? AND email = ?`
followed by `fetchone()`: whether the membership pair exists. -/
def isRegistered (db : DB) (activity_name email : String) : Bool :=
  db.participants.any (fun m => m.activity_name == activity_name && m.email == email)

/-- Effect of `DELETE FROM participants WHERE activity_name = ? AND email = ?`
on the participants rows: every matching row is removed. -/
def deleteMatching (ps : List MembershipRow) (activity_name email : String) :
    List MembershipRow :=
  ps.filter (fun m => !(m.activity_name == activity_name && m.email == email))

/-- `signup_for_activity` of `src/app.py`. Checks, in the code's order:
activity existence (else 404), capacity (else 400 "Activity is full"),
duplicate registration (else 400 "Already registered for this activity");
then inserts the membership row and commits. On success the result carries
the response message and the committed store. -/
def signup_for_activity (db : DB) (activity_name email : String) :
    Except HTTPException (String × DB) :=
  match findActivity db activity_name with
  | none => .error { status_code := 404, detail := "Activity not found" }
  | some activity =>
    if activity.max_participants ≤ (countParticipants db activity_name : Int) then
      .error { status_code := 400, detail := "Activity is full" }
    else if isRegistered db activity_name email then
      .error { status_code := 400, detail := "Already registered for this activity" }
    else
      .ok ("Successfully signed up for " ++ activity_name,
        { activities := db.activities,
          participants := db.participants ++ [MembershipRow.mk activity_name email] })

/-- `unregister_from_activity` of `src/app.py`. Checks activity existence
(else 404), then executes the DELETE on the connection; when its `rowcount`
is 0 it raises 404 "Participant not found" (the connection is closed without
a commit), otherwise it commits the deletion. -/
def unregister_from_activity (db : DB) (activity_name email : String) :
    Except HTTPException (String × DB) :=
  if (findActivity db activity_name).isNone then
    .error { status_code := 404, detail := "Activity not found" }
  else
    let remaining := deleteMatching db.participants activity_name email
    if db.participants.length - remaining.length = 0 then
      .error { status_code := 404, detail := "Participant not found" }
    else
      .ok ("Successfully unregistered from " ++ activity_name,
        { activities := db.activities, participants := remaining })

/-- The committed store after a signup request: the returned store on
success; on an exception the connection closes without a commit, so the
store is unchanged. -/
def stateAfterSignup (db : DB) (activity_name email : String) : DB :=
  match signup_for_activity db activity_name email with
  | .ok r => r.2
  | .error _ => db

/-- The committed store after an unregister request (rollback on error). -/
def stateAfterUnregister (db : DB) (activity_name email : String) : DB :=
  match unregister_from_activity db activity_name email with
  | .ok r => r.2
  | .error _ => db

/-- The value stored under one key of the dict built by `get_activities`:
description, schedule, max_participants and the participants email list. -/
structure ActivityInfo where
  description : String
  schedule : String
  max_participants : Int
  participants : List String
deriving DecidableEq, Repr

/-- The dict entry `get_activities` creates for an activity row in its first
loop: the row's fields with an empty participants list. -/
def emptyInfo (a : Activity) : ActivityInfo :=
  { description := a.description, schedule := a.schedule,
    max_participants := a.max_participants, participants := [] }

/-- Python dict assignment `d[k] = v` on a dict modelled as a key-value list
in insertion order: overwrite in place when the key exists, else append. -/
def dictInsert (d : List (String × ActivityInfo)) (k : String) (v : ActivityInfo) :
    List (String × ActivityInfo) :=
  if d.any (fun p => p.1 == k) then
    d.map (fun p => if p.1 == k then (p.1, v) else p)
  else d ++ [(k, v)]

/-- `info` with one more email appended to its participants list
(`activities[...]["participants"].append(row["email"])`). -/
def addEmail (info : ActivityInfo) (email : String) : ActivityInfo :=
  { info with participants := info.participants ++ [email] }

/-- The second loop of `get_activities`: for each participants row, append
its email under the dict key `row["activity_name"]`. A row whose activity
name is not a dict key raises `KeyError` (modelled as `none`). -/
def addParticipantRows (d : List (String × ActivityInfo)) :
    List MembershipRow → Option (List (String × ActivityInfo))
  | [] => some d
  | m :: rest =>
    if d.any (fun p => p.1 == m.activity_name) then
      addParticipantRows
        (d.map (fun p =>
          if p.1 == m.activity_name then (p.1, addEmail p.2 m.email) else p))
        rest
    else none

/-- `get_activities` of `src/app.py`: builds a dict keyed by activity name
from the activities rows, then appends each participants row's email to its
activity's entry. Reads only; the store is not an output because no SQL
statement of the handler modifies it. `none` is the `KeyError` raised when a
participants row references a missing activity. -/
def get_activities (db : DB) : Option (List (String × ActivityInfo)) :=
  addParticipantRows
    (db.activities.foldl (fun d a => dictInsert d a.name (emptyInfo a)) [])
    db.participants

/-- The table the spec describes: each stored activity in order, mapped to
its fields and exactly its membership emails. -/
def canonicalTable (db : DB) : List (String × ActivityInfo) :=
  db.activities.map (fun a =>
    (a.name,
      { description := a.description, schedule := a.schedule,
        max_participants := a.max_participants,
        participants :=
          (db.participants.filter (fun m => m.activity_name == a.name)).map
            (fun m => m.email) }))

/-- An HTTP redirect response: status code and target location. -/
structure RedirectResponse where
  status_code : Nat
  url : String
deriving DecidableEq, Repr

/-- Default `status_code` of `fastapi.responses.RedirectResponse`, which is
starlette's `RedirectResponse` (starlette/responses.py declares
`status_code: int = 307`); `root` passes no `status_code` argument, so this
default applies. -/
def redirectResponseDefaultStatus : Nat := 307

/-- The `GET /` handler `root` of `src/app.py`:
`RedirectResponse(url="/static/index.html")`. -/
def root : RedirectResponse :=
  { status_code := redirectResponseDefaultStatus, url := "/static/index.html" }

/-- States reachable from the seeded initial state by any sequence of
signup and unregister requests (failed requests leave the store as is). -/
inductive Reachable : DB → Prop
  | init : Reachable seedDB
  | signup (db : DB) (n e : String) : Reachable db →
      Reachable (stateAfterSignup db n e)
  | unregister (db : DB) (n e : String) : Reachable db →
      Reachable (stateAfterUnregister db n e)

/-- Capacity invariant: no activity's membership count exceeds its
`max_participants`. -/
def CapacityInv (db : DB) : Prop :=
  ∀ a ∈ db.activities, (countParticipants db a.name : Int) ≤ a.max_participants

/-- Referential integrity: every membership row names an existing activity. -/
def RefInt (db : DB) : Prop :=
  ∀ m ∈ db.participants, ∃ a ∈ db.activities, a.name = m.activity_name

instance : DecidablePred CapacityInv := fun db =>
  inferInstanceAs (Decidable (∀ a ∈ db.activities, _))

instance : DecidablePred RefInt := fun db =>
  inferInstanceAs (Decidable (∀ m ∈ db.participants, _))

/-- Combined invariant carried through the reachability induction: the
activities table stays exactly the seeded one (no handler writes to it),
capacity holds, and referential integrity holds. -/
def GoodState (db : DB) : Prop :=
  db.activities = seedDB.activities ∧ CapacityInv db ∧ RefInt db

/-- `canonicalTable` generalized to a parameter list of membership rows,
used as the induction motive for the `get_activities` proof. -/
def tableAt (A : List Activity) (ps : List MembershipRow) :
    List (String × ActivityInfo) :=
  A.map (fun a =>
    (a.name,
      { description := a.description, schedule := a.schedule,
        max_participants := a.max_participants,
        participants :=
          (ps.filter (fun m => m.activity_name == a.name)).map
            (fun m => m.email) }))

/-- The store after one successful Chess Club signup on the seeded state. -/
def chessSignupDB : DB :=
  { activities := seedDB.activities,
    participants := seedDB.participants ++ [MembershipRow.mk "Chess Club" "x@mergington.edu"] }

lemma countParticipants_append_single (A : List Activity) (ps : List MembershipRow)
    (n e x : String) :
    countParticipants { activities := A, participants := ps ++ [MembershipRow.mk n e] } x
      = countParticipants { activities := A, participants := ps } x
        + (if n = x then 1 else 0) := by
  by_cases h : n = x <;>
    simp [countParticipants, List.filter_append, h]

lemma countParticipants_delete_le (A : List Activity) (ps : List MembershipRow)
    (n e x : String) :
    countParticipants { activities := A, participants := deleteMatching ps n e } x
      ≤ countParticipants { activities := A, participants := ps } x := by
  unfold countParticipants deleteMatching
  exact ((List.filter_sublist ps).filter _).length_le

lemma findActivity_irrelevant_participants (A : List Activity)
    (ps ps' : List MembershipRow) (n : String) :
    findActivity { activities := A, participants := ps } n
      = findActivity { activities := A, participants := ps' } n := rfl

lemma find?_name_eq_of_nodup (l : List Activity) (n : String) (a b : Activity)
    (hnd : (l.map Activity.name).Nodup) (ha : a ∈ l) (han : a.name = n)
    (hfind : l.find? (fun x => x.name == n) = some b) : b = a := by
  induction l with
  | nil => cases ha
  | cons hd t ih =>
    by_cases hh : hd.name = n
    · rw [List.find?_cons_of_pos _ (by simp [hh])] at hfind
      rcases List.mem_cons.mp ha with rfl | hat
      · exact (Option.some_injective _ hfind).symm
      · exfalso
        have : hd.name ∉ t.map Activity.name := (List.nodup_cons.mp hnd).1
        exact this (by rw [hh, ← han]; exact List.mem_map_of_mem _ hat)
    · rw [List.find?_cons_of_neg _ (by simp [hh])] at hfind
      rcases List.mem_cons.mp ha with rfl | hat
      · exact absurd han hh
      · exact ih (List.nodup_cons.mp hnd).2 hat hfind

lemma signup_ok_dest (db : DB) (n e m : String) (db' : DB)
    (h : signup_for_activity db n e = .ok (m, db')) :
    ∃ a, findActivity db n = some a ∧
      (countParticipants db n : Int) < a.max_participants ∧
      isRegistered db n e = false ∧
      m = "Successfully signed up for " ++ n ∧
      db' = { activities := db.activities,
              participants := db.participants ++ [MembershipRow.mk n e] } := by
  unfold signup_for_activity at h
  cases hf : findActivity db n <;> rw [hf] at h
  · simp at h
  case some a =>
    dsimp only at h
    by_cases h1 : a.max_participants ≤ (countParticipants db n : Int)
    · rw [if_pos h1] at h
      simp at h
    · rw [if_neg h1] at h
      by_cases h2 : isRegistered db n e = true
      · rw [if_pos h2] at h
        simp at h
      · rw [if_neg h2] at h
        simp only [Except.ok.injEq, Prod.mk.injEq] at h
        exact ⟨a, rfl, lt_of_not_le h1, Bool.eq_false_iff.mpr h2, h.1.symm, h.2.symm⟩

lemma stateAfterSignup_cases (db : DB) (n e : String) :
    stateAfterSignup db n e = db ∨
    (∃ a, findActivity db n = some a ∧
      (countParticipants db n : Int) < a.max_participants ∧
      isRegistered db n e = false ∧
      stateAfterSignup db n e =
        { activities := db.activities,
          participants := db.participants ++ [MembershipRow.mk n e] }) := by
  unfold stateAfterSignup
  cases hr : signup_for_activity db n e with
  | error err => exact Or.inl rfl
  | ok r =>
    obtain ⟨a, hf, hc, hreg, _, hdb⟩ := signup_ok_dest db n e r.1 r.2 (by rw [← hr])
    exact Or.inr ⟨a, hf, hc, hreg, hdb⟩

lemma unregister_ok_dest (db : DB) (n e m : String) (db' : DB)
    (h : unregister_from_activity db n e = .ok (m, db')) :
    db' = { activities := db.activities,
            participants := deleteMatching db.participants n e } := by
  unfold unregister_from_activity at h
  by_cases h1 : (findActivity db n).isNone = true
  · rw [if_pos h1] at h
    simp at h
  · rw [if_neg h1] at h
    by_cases h2 : db.participants.length - (deleteMatching db.participants n e).length = 0
    · rw [if_pos h2] at h
      simp at h
    · rw [if_neg h2] at h
      simp only [Except.ok.injEq, Prod.mk.injEq] at h
      exact h.2.symm

lemma stateAfterUnregister_cases (db : DB) (n e : String) :
    stateAfterUnregister db n e = db ∨
    stateAfterUnregister db n e =
      { activities := db.activities,
        participants := deleteMatching db.participants n e } := by
  unfold stateAfterUnregister
  cases hr : unregister_from_activity db n e with
  | error err => exact Or.inl rfl
  | ok r => exact Or.inr (unregister_ok_dest db n e r.1 r.2 (by rw [← hr]))

lemma delete_rowcount_zero_iff (ps : List MembershipRow) (n e : String) :
    ps.length - (deleteMatching ps n e).length = 0 ↔
      (ps.any (fun m => m.activity_name == n && m.email == e)) = false := by
  constructor
  · intro h
    have hle : (deleteMatching ps n e).length ≤ ps.length := by
      unfold deleteMatching
      exact (List.filter_sublist ps).length_le
    have hlen : ps.length ≤ (deleteMatching ps n e).length := by omega
    have heq : deleteMatching ps n e = ps :=
      (List.filter_sublist ps).eq_of_length_le hlen
    have hall := List.filter_eq_self.mp heq
    rw [List.any_eq_false]
    intro m hm
    have h2 := hall m hm
    cases hb : (m.activity_name == n && m.email == e) with
    | false => simp
    | true => rw [hb] at h2; simp at h2
  · intro h
    have heq : deleteMatching ps n e = ps := by
      apply List.filter_eq_self.mpr
      intro m hm
      have h2 := List.any_eq_false.mp h m hm
      cases hb : (m.activity_name == n && m.email == e) with
      | false => simp
      | true => exact absurd hb h2
    rw [heq, Nat.sub_self]

lemma seed_activity_names_nodup : (seedDB.activities.map Activity.name).Nodup := by
  decide

lemma goodState_seed : GoodState seedDB :=
  ⟨rfl, by decide, by decide⟩

lemma goodState_signup (db : DB) (n e : String) (h : GoodState db) :
    GoodState (stateAfterSignup db n e) := by
  rcases stateAfterSignup_cases db n e with heq | ⟨a, hf, hc, _, heq⟩
  · rw [heq]; exact h
  · rw [heq]
    obtain ⟨hact, hcap, href⟩ := h
    refine ⟨hact, ?_, ?_⟩
    · intro b hb
      rw [countParticipants_append_single]
      by_cases hx : n = b.name
      · have hab : a = b := by
          refine find?_name_eq_of_nodup db.activities n b a ?_ hb hx.symm hf
          rw [hact]
          exact seed_activity_names_nodup
        rw [if_pos hx]
        have hdbeta : ({ activities := db.activities, participants := db.participants } : DB) = db := rfl
        rw [hdbeta, ← hx]
        rw [hab] at hc
        push_cast
        omega
      · rw [if_neg hx]
        simpa using hcap b hb
    · intro m hm
      rcases List.mem_append.mp hm with hm | hm
      · exact href m hm
      · have hme : m = MembershipRow.mk n e := by simpa using hm
        subst hme
        refine ⟨a, List.mem_of_find?_eq_some hf, ?_⟩
        have := List.find?_some hf
        simpa using this

lemma goodState_unregister (db : DB) (n e : String) (h : GoodState db) :
    GoodState (stateAfterUnregister db n e) := by
  rcases stateAfterUnregister_cases db n e with heq | heq
  · rw [heq]; exact h
  · rw [heq]
    obtain ⟨hact, hcap, href⟩ := h
    refine ⟨hact, ?_, ?_⟩
    · intro b hb
      have h1 : (countParticipants
          { activities := db.activities,
            participants := deleteMatching db.participants n e } b.name : Int)
          ≤ (countParticipants db b.name : Int) := by
        exact_mod_cast countParticipants_delete_le db.activities db.participants n e b.name
      exact le_trans h1 (hcap b hb)
    · intro m hm
      exact href m (List.mem_of_mem_filter hm)

lemma reachable_good (db : DB) (h : Reachable db) : GoodState db := by
  induction h with
  | init => exact goodState_seed
  | signup db n e _ ih => exact goodState_signup db n e ih
  | unregister db n e _ ih => exact goodState_unregister db n e ih

lemma build_base_eq (l : List Activity) (d : List (String × ActivityInfo))
    (hnd : (l.map Activity.name).Nodup)
    (hdisj : ∀ a ∈ l, ∀ p ∈ d, p.1 ≠ a.name) :
    l.foldl (fun d a => dictInsert d a.name (emptyInfo a)) d
      = d ++ l.map (fun a => (a.name, emptyInfo a)) := by
  induction l generalizing d with
  | nil => simp
  | cons a t ih =>
    have hnotmem : (d.any (fun p => p.1 == a.name)) = false := by
      rw [List.any_eq_false]
      intro p hp
      simpa using hdisj a (List.mem_cons_self a t) p hp
    have hstep : dictInsert d a.name (emptyInfo a) = d ++ [(a.name, emptyInfo a)] := by
      unfold dictInsert
      rw [hnotmem]
      simp
    simp only [List.foldl_cons, hstep]
    rw [ih (d ++ [(a.name, emptyInfo a)]) (List.nodup_cons.mp (by simpa using hnd)).2]
    · simp
    · intro b hb p hp
      rcases List.mem_append.mp hp with hp | hp
      · exact hdisj b (List.mem_cons_of_mem a hb) p hp
      · have hpa : p = (a.name, emptyInfo a) := by simpa using hp
        subst hpa
        intro hcontra
        have hnotin : a.name ∉ t.map Activity.name := (List.nodup_cons.mp (by simpa using hnd)).1
        have hcontra2 : a.name = b.name := hcontra
        refine hnotin ?_
        rw [hcontra2]
        exact List.mem_map_of_mem Activity.name hb

lemma tableAt_nil_participants (A : List Activity) :
    tableAt A [] = A.map (fun a => (a.name, emptyInfo a)) := by
  simp [tableAt, emptyInfo]

lemma addParticipantRows_tableAt (A : List Activity) (rest : List MembershipRow) :
    ∀ (done : List MembershipRow),
      (∀ m ∈ rest, ∃ a ∈ A, a.name = m.activity_name) →
      addParticipantRows (tableAt A done) rest = some (tableAt A (done ++ rest)) := by
  induction rest with
  | nil =>
    intro done _
    simp [addParticipantRows]
  | cons m rest ih =>
    intro done h
    obtain ⟨a, ha, hname⟩ := h m (List.mem_cons_self m rest)
    have hany : ((tableAt A done).any (fun p => p.1 == m.activity_name)) = true := by
      rw [List.any_eq_true]
      refine ⟨(a.name, _), List.mem_map_of_mem _ ha, by simp [hname]⟩
    have hupd : (tableAt A done).map (fun p =>
        if p.1 == m.activity_name then (p.1, addEmail p.2 m.email) else p)
        = tableAt A (done ++ [m]) := by
      unfold tableAt
      rw [List.map_map]
      apply List.map_congr_left
      intro b _
      by_cases hx : b.name = m.activity_name
      · have hmb : (m.activity_name == b.name) = true := by simp [hx]
        simp [Function.comp, hx, addEmail, List.filter_append, List.filter, hmb]
      · have hmb : (m.activity_name == b.name) = false := by
          simp only [beq_eq_false_iff_ne, ne_eq]
          exact fun hh => hx hh.symm
        have hxb : (b.name == m.activity_name) = false := by simpa using hx
        simp [Function.comp, hxb, List.filter_append, List.filter, hmb]
    rw [show addParticipantRows (tableAt A done) (m :: rest)
        = if (tableAt A done).any (fun p => p.1 == m.activity_name) then
            addParticipantRows ((tableAt A done).map (fun p =>
              if p.1 == m.activity_name then (p.1, addEmail p.2 m.email) else p)) rest
          else none from rfl]
    rw [hany]
    simp only [if_true]
    rw [hupd, ih (done ++ [m]) (fun m' hm' => h m' (List.mem_cons_of_mem m hm'))]
    rw [List.append_assoc]
    simp

lemma get_activities_eq_canonical (db : DB)
    (hnd : (db.activities.map Activity.name).Nodup) (href : RefInt db) :
    get_activities db = some (canonicalTable db) := by
  unfold get_activities
  rw [build_base_eq db.activities [] hnd (by simp), List.nil_append,
    ← tableAt_nil_participants,
    addParticipantRows_tableAt db.activities db.participants [] href]
  rfl

/-- C1: in every state reachable from the seeded initial state by any
sequence of signup and unregister requests, no activity's membership count
(`countParticipants`) ever exceeds its `max_participants`. -/
theorem C1_capacity_never_exceeded (db : DB) (h : Reachable db) :
    CapacityInv db :=
  (reachable_good db h).2.1

/-- Witness for C1: the capacity invariant holds at the concrete reachable
state obtained by one successful Chess Club signup on the seeded state. -/
theorem C1_capacity_never_exceeded_witness :
    CapacityInv (stateAfterSignup seedDB "Chess Club" "x@mergington.edu") :=
  C1_capacity_never_exceeded
    (stateAfterSignup seedDB "Chess Club" "x@mergington.edu")
    (Reachable.signup seedDB "Chess Club" "x@mergington.edu" Reachable.init)

/-- C2: signup's complete case analysis on any state. It fails 404 exactly
when the activity does not exist; otherwise fails 400 "Activity is full"
exactly when the membership count has reached `max_participants`; otherwise
fails 400 "Already registered for this activity" exactly when the pair
already exists; otherwise it inserts the membership row, commits, and
returns the success message. -/
theorem C2_signup_case_analysis (db : DB) (n e : String) :
    (signup_for_activity db n e
        = .error { status_code := 404, detail := "Activity not found" }
      ↔ findActivity db n = none)
    ∧ (∀ a, findActivity db n = some a →
        (signup_for_activity db n e
            = .error { status_code := 400, detail := "Activity is full" }
          ↔ a.max_participants ≤ (countParticipants db n : Int)))
    ∧ (∀ a, findActivity db n = some a →
        (countParticipants db n : Int) < a.max_participants →
        (signup_for_activity db n e
            = .error { status_code := 400, detail := "Already registered for this activity" }
          ↔ isRegistered db n e = true))
    ∧ (∀ a, findActivity db n = some a →
        (countParticipants db n : Int) < a.max_participants →
        isRegistered db n e = false →
        signup_for_activity db n e
          = .ok ("Successfully signed up for " ++ n,
              { activities := db.activities,
                participants := db.participants ++ [MembershipRow.mk n e] })) := by
  unfold signup_for_activity
  cases hf : findActivity db n
  · refine ⟨by simp, ?_, ?_, ?_⟩
    · intro a ha
      simp at ha
    · intro a ha
      simp at ha
    · intro a ha
      simp at ha
  case some a0 =>
    dsimp only
    refine ⟨?_, ?_, ?_, ?_⟩
    · constructor
      · intro hcontra
        exfalso
        split_ifs at hcontra <;> simp_all
      · intro hcontra
        simp at hcontra
    · intro a ha
      injection ha with ha
      subst ha
      constructor
      · intro hcontra
        by_cases hcap : a0.max_participants ≤ (countParticipants db n : Int)
        · exact hcap
        · exfalso
          rw [if_neg hcap] at hcontra
          split_ifs at hcontra
          simp_all
      · intro hcap
        rw [if_pos hcap]
    · intro a ha hlt
      injection ha with ha
      subst ha
      rw [if_neg (not_le.mpr hlt)]
      constructor
      · intro hcontra
        by_cases hreg : isRegistered db n e = true
        · exact hreg
        · exfalso
          rw [if_neg hreg] at hcontra
          simp at hcontra
      · intro hreg
        rw [if_pos hreg]
    · intro a ha hlt hreg
      injection ha with ha
      subst ha
      rw [if_neg (not_le.mpr hlt), if_neg (by simp [hreg])]

/-- Witness for C2: on the seeded state, a fresh Chess Club signup takes the
success branch with the inserted membership row. -/
theorem C2_signup_case_analysis_witness :
    signup_for_activity seedDB "Chess Club" "new@mergington.edu"
      = .ok ("Successfully signed up for " ++ "Chess Club",
          { activities := seedDB.activities,
            participants := seedDB.participants
              ++ [MembershipRow.mk "Chess Club" "new@mergington.edu"] }) :=
  (C2_signup_case_analysis seedDB "Chess Club" "new@mergington.edu").2.2.2
    { name := "Chess Club",
      description := "Learn strategies and compete in chess tournaments",
      schedule := "Fridays, 3:30 PM - 5:00 PM", max_participants := 12 }
    (by decide) (by decide) (by decide)

/-- C3: unregister's complete case analysis on any state. It fails 404
"Activity not found" exactly when the activity does not exist; otherwise
fails 404 "Participant not found" exactly when no matching membership row
exists (the DELETE touched no row); otherwise it deletes exactly the
matching membership rows and returns the success message. -/
theorem C3_unregister_case_analysis (db : DB) (n e : String) :
    (unregister_from_activity db n e
        = .error { status_code := 404, detail := "Activity not found" }
      ↔ findActivity db n = none)
    ∧ ((findActivity db n).isSome = true →
        (unregister_from_activity db n e
            = .error { status_code := 404, detail := "Participant not found" }
          ↔ isRegistered db n e = false))
    ∧ ((findActivity db n).isSome = true → isRegistered db n e = true →
        unregister_from_activity db n e
          = .ok ("Successfully unregistered from " ++ n,
              { activities := db.activities,
                participants := deleteMatching db.participants n e })) := by
  unfold unregister_from_activity
  by_cases hf : (findActivity db n).isNone = true
  · rw [if_pos hf]
    refine ⟨?_, ?_, ?_⟩
    · simp [Option.isNone_iff_eq_none.mp hf]
    · intro hcontra
      rw [Option.isNone_iff_eq_none.mp hf] at hcontra
      simp at hcontra
    · intro hcontra
      rw [Option.isNone_iff_eq_none.mp hf] at hcontra
      simp at hcontra
  · rw [if_neg hf]
    have hfs : findActivity db n ≠ none := by
      intro hcontra
      exact hf (by simp [hcontra])
    refine ⟨?_, ?_, ?_⟩
    · constructor
      · intro hcontra
        exfalso
        dsimp only at hcontra
        split_ifs at hcontra
        simp_all
      · intro hcontra
        exact absurd hcontra hfs
    · intro _
      by_cases hzero : db.participants.length - (deleteMatching db.participants n e).length = 0
      · rw [if_pos hzero]
        have hreg : isRegistered db n e = false := by
          unfold isRegistered
          exact (delete_rowcount_zero_iff db.participants n e).mp hzero
        simp [hreg]
      · rw [if_neg hzero]
        have hreg : isRegistered db n e = true := by
          by_contra hcontra
          refine hzero ((delete_rowcount_zero_iff db.participants n e).mpr ?_)
          unfold isRegistered at hcontra
          exact Bool.eq_false_iff.mpr hcontra
        constructor
        · intro hcontra
          simp at hcontra
        · intro hcontra
          rw [hcontra] at hreg
          cases hreg
    · intro _ hreg
      have hzero : ¬ db.participants.length - (deleteMatching db.participants n e).length = 0 := by
        intro hcontra
        have := (delete_rowcount_zero_iff db.participants n e).mp hcontra
        unfold isRegistered at hreg
        rw [hreg] at this
        cases this
      rw [if_neg hzero]

/-- Witness for C3: on the seeded state, unregistering a seeded Chess Club
member takes the success branch and removes exactly that row. -/
theorem C3_unregister_case_analysis_witness :
    unregister_from_activity seedDB "Chess Club" "michael@mergington.edu"
      = .ok ("Successfully unregistered from " ++ "Chess Club",
          { activities := seedDB.activities,
            participants :=
              deleteMatching seedDB.participants "Chess Club" "michael@mergington.edu" }) :=
  (C3_unregister_case_analysis seedDB "Chess Club" "michael@mergington.edu").2.2
    (by decide) (by decide)

/-- C4 counterexample: on a one-slot activity "A", the first signup succeeds
and fills the activity, and the immediately following identical signup fails
with 400 "Activity is full" — not the Conflict error the claim states —
because the handler's capacity check runs before its duplicate check. -/
theorem C4_counterexample :
    signup_for_activity
        { activities := [Activity.mk "A" "d" "s" 1], participants := [] } "A" "e"
      = .ok ("Successfully signed up for " ++ "A",
          { activities := [Activity.mk "A" "d" "s" 1],
            participants := [MembershipRow.mk "A" "e"] })
    ∧ signup_for_activity
        { activities := [Activity.mk "A" "d" "s" 1],
          participants := [MembershipRow.mk "A" "e"] } "A" "e"
      = .error { status_code := 400, detail := "Activity is full" }
    ∧ ({ status_code := 400, detail := "Activity is full" } : HTTPException)
      ≠ { status_code := 400, detail := "Already registered for this activity" } :=
  ⟨rfl, rfl, by decide⟩

/-- C4 amended: after a successful signup, an immediately repeated identical
signup always fails with status 400: with "Activity is full" when the first
signup brought the activity to capacity (the capacity check runs first), and
with "Already registered for this activity" otherwise. -/
theorem C4_second_signup_rejected (db : DB) (n e m : String) (db' : DB)
    (h : signup_for_activity db n e = .ok (m, db')) :
    ∃ a, findActivity db' n = some a ∧
      signup_for_activity db' n e
        = .error
            (if a.max_participants ≤ (countParticipants db' n : Int) then
              { status_code := 400, detail := "Activity is full" }
            else
              { status_code := 400, detail := "Already registered for this activity" }) := by
  obtain ⟨a, hf, _, _, _, hdb⟩ := signup_ok_dest db n e m db' h
  have hf' : findActivity db' n = some a := by
    rw [hdb]
    exact hf
  have hreg : isRegistered db' n e = true := by
    rw [hdb]
    unfold isRegistered
    rw [List.any_append]
    simp
  refine ⟨a, hf', ?_⟩
  unfold signup_for_activity
  rw [hf']
  dsimp only
  by_cases hcap : a.max_participants ≤ (countParticipants db' n : Int)
  · rw [if_pos hcap, if_pos hcap]
  · rw [if_neg hcap, if_neg hcap, if_pos hreg]

/-- Witness for the amended C4: the repeated Chess Club signup on the seeded
state, which hits the "Already registered" branch (Chess Club is not full). -/
theorem C4_second_signup_rejected_witness :
    ∃ a, findActivity chessSignupDB "Chess Club" = some a ∧
      signup_for_activity chessSignupDB "Chess Club" "x@mergington.edu"
        = .error
            (if a.max_participants ≤ (countParticipants chessSignupDB "Chess Club" : Int) then
              { status_code := 400, detail := "Activity is full" }
            else
              { status_code := 400, detail := "Already registered for this activity" }) :=
  C4_second_signup_rejected seedDB "Chess Club" "x@mergington.edu"
    ("Successfully signed up for " ++ "Chess Club") chessSignupDB rfl

/-- C5: `init_db` is idempotent on every store, and from the empty store it
produces exactly one copy of the fixed initial dataset, whose activity names
and (activity_name, email) pairs contain no duplicates. -/
theorem C5_init_db_idempotent :
    (∀ db : DB, init_db (init_db db) = init_db db)
    ∧ init_db emptyDB
        = { activities := seedActivityRows, participants := seedMembershipRows }
    ∧ init_db (init_db emptyDB) = init_db emptyDB
    ∧ ((init_db emptyDB).activities.map Activity.name).Nodup
    ∧ ((init_db emptyDB).participants.map
        (fun mm => (mm.activity_name, mm.email))).Nodup := by
  refine ⟨?_, rfl, rfl, by decide, by decide⟩
  intro db
  by_cases h : db.activities.length = 0
  · simp [init_db, h, seedActivityRows, INITIAL_ACTIVITIES]
  · simp [init_db, h]

/-- C6: in every state reachable from the seeded initial state by any
sequence of signup and unregister requests, every membership row's
activity_name references an existing activity row. -/
theorem C6_referential_integrity (db : DB) (h : Reachable db) : RefInt db :=
  (reachable_good db h).2.2

/-- Witness for C6: referential integrity at the concrete reachable state
after one unregister request on the seeded state. -/
theorem C6_referential_integrity_witness :
    RefInt (stateAfterUnregister seedDB "Chess Club" "michael@mergington.edu") :=
  C6_referential_integrity
    (stateAfterUnregister seedDB "Chess Club" "michael@mergington.edu")
    (Reachable.unregister seedDB "Chess Club" "michael@mergington.edu" Reachable.init)

/-- C7: whenever signup or unregister ends in an error, the committed store
is exactly the store before the request; moreover on unregister's
"Participant not found" path even the uncommitted DELETE removed no row. -/
theorem C7_errors_leave_store_unchanged (db : DB) (n e : String) (err : HTTPException) :
    (signup_for_activity db n e = .error err → stateAfterSignup db n e = db)
    ∧ (unregister_from_activity db n e = .error err → stateAfterUnregister db n e = db)
    ∧ (unregister_from_activity db n e
          = .error { status_code := 404, detail := "Participant not found" } →
        deleteMatching db.participants n e = db.participants) := by
  refine ⟨?_, ?_, ?_⟩
  · intro h
    unfold stateAfterSignup
    rw [h]
  · intro h
    unfold stateAfterUnregister
    rw [h]
  · intro h
    unfold unregister_from_activity at h
    by_cases h1 : (findActivity db n).isNone = true
    · rw [if_pos h1] at h
      exfalso
      simp at h
    · rw [if_neg h1] at h
      dsimp only at h
      by_cases h2 : db.participants.length - (deleteMatching db.participants n e).length = 0
      · have hle : (deleteMatching db.participants n e).length ≤ db.participants.length := by
          unfold deleteMatching
          exact (List.filter_sublist db.participants).length_le
        have hlen : db.participants.length ≤ (deleteMatching db.participants n e).length := by
          omega
        exact (List.filter_sublist db.participants).eq_of_length_le hlen
      · rw [if_neg h2] at h
        simp at h

/-- Witness for C7: unregistering a non-member from Chess Club on the seeded
state fails and leaves the committed store (and even the pending DELETE
result) unchanged. -/
theorem C7_errors_leave_store_unchanged_witness :
    stateAfterUnregister seedDB "Chess Club" "nobody@mergington.edu" = seedDB
    ∧ deleteMatching seedDB.participants "Chess Club" "nobody@mergington.edu"
        = seedDB.participants :=
  ⟨(C7_errors_leave_store_unchanged seedDB "Chess Club" "nobody@mergington.edu"
      { status_code := 404, detail := "Participant not found" }).2.1 rfl,
   (C7_errors_leave_store_unchanged seedDB "Chess Club" "nobody@mergington.edu"
      { status_code := 404, detail := "Participant not found" }).2.2 rfl⟩

/-- C8 counterexample: the claim says GET / responds with status 302, but
`root` returns a `RedirectResponse` built with starlette's default status
code, which is 307. -/
theorem C8_counterexample : ¬ root.status_code = 302 := by decide

/-- C8 amended: GET / returns an HTTP 307 redirect (starlette's
RedirectResponse default, since `root` passes no status_code) to
/static/index.html. -/
theorem C8_root_redirect :
    root = { status_code := 307, url := "/static/index.html" } := rfl

/-- C9 counterexample: on a store holding a membership row that references
no activity — a state the claim's universal quantification includes —
`get_activities` hits a KeyError (`none`) instead of returning a mapping. -/
theorem C9_counterexample :
    get_activities { activities := [], participants := [MembershipRow.mk "X" "e"] }
      = none := rfl

/-- C9 amended: on every state whose membership rows all reference existing
activities and whose activity names are distinct — both guaranteed for the
real store by referential integrity of reachable states and the
`name` PRIMARY KEY — `get_activities` reads the store without modifying it
and returns the table keyed by exactly the stored activity names, each with
its description, schedule, max_participants, and exactly its membership
emails. -/
theorem C9_list_activities_canonical (db : DB)
    (hnd : (db.activities.map Activity.name).Nodup) (href : RefInt db) :
    get_activities db = some (canonicalTable db)
    ∧ (canonicalTable db).map Prod.fst = db.activities.map Activity.name := by
  refine ⟨get_activities_eq_canonical db hnd href, ?_⟩
  unfold canonicalTable
  rw [List.map_map]
  rfl

/-- Witness for the amended C9: the seeded state satisfies both hypotheses
and `get_activities` returns its canonical table. -/
theorem C9_list_activities_canonical_witness :
    get_activities seedDB = some (canonicalTable seedDB)
    ∧ (canonicalTable seedDB).map Prod.fst = seedDB.activities.map Activity.name :=
  C9_list_activities_canonical seedDB (by decide) (by decide)

/-- C10: signup never inspects the email string. Whenever the activity
exists, is below capacity, and the pair is not yet registered, signup
succeeds for any string whatsoever — empty or non-email-shaped included —
and records exactly that string as the membership row's email. -/
theorem C10_no_email_validation (db : DB) (n e : String) (a : Activity)
    (hf : findActivity db n = some a)
    (hc : (countParticipants db n : Int) < a.max_participants)
    (hr : isRegistered db n e = false) :
    signup_for_activity db n e
      = .ok ("Successfully signed up for " ++ n,
          { activities := db.activities,
            participants := db.participants ++ [MembershipRow.mk n e] }) := by
  unfold signup_for_activity
  rw [hf]
  dsimp only
  rw [if_neg (not_le.mpr hc), if_neg (by simp [hr])]

/-- Witness for C10: the empty string is accepted and recorded verbatim as a
Chess Club participant on the seeded state. -/
theorem C10_no_email_validation_witness :
    signup_for_activity seedDB "Chess Club" ""
      = .ok ("Successfully signed up for " ++ "Chess Club",
          { activities := seedDB.activities,
            participants := seedDB.participants ++ [MembershipRow.mk "Chess Club" ""] }) :=
  C10_no_email_validation seedDB "Chess Club" ""
    { name := "Chess Club",
      description := "Learn strategies and compete in chess tournaments",
      schedule := "Fridays, 3:30 PM - 5:00 PM", max_participants := 12 }
    (by decide) (by decide) (by decide)
